import Mathlib

set_option maxHeartbeats 1000000

/-!
Shallow embedding of the query-processing and error-taxonomy core of the
product-catalog service (utils/queryHelpers.js, utils/statsCalculator.js,
errors/*.js, and the GET /api/products handler of server.js), together with
proofs about the embedded operations.

JavaScript strings are modelled as Lean strings, JavaScript numbers as NaN,
signed infinities, or exact rationals.
-/

/-! ## JavaScript primitives -/

/-- String.prototype.toLowerCase, at the character level. -/
def jsToLower (s : String) : String := String.mk (s.data.map Char.toLower)

/-- The JS relational < on strings: code-unit lexicographic comparison,
modelled on the character lists of the two strings. -/
def charListLt : List Char → List Char → Bool
  | [], [] => false
  | [], _ :: _ => true
  | _ :: _, [] => false
  | a :: as, b :: bs => if a < b then true else if b < a then false else charListLt as bs

/-- String.prototype.includes: the needle occurs as a contiguous substring. -/
def jsIncludes (s t : String) : Bool := decide (t.data <:+: s.data)

/-- A JavaScript number as relevant to this code base: NaN, a signed
infinity, or a finite value modelled as an exact rational. -/
inductive JSNum
  | nan
  | posInf
  | negInf
  | num (q : ℚ)
deriving DecidableEq

/-- JS relational < on numbers; any comparison involving NaN is false. -/
def JSNum.lt : JSNum → JSNum → Bool
  | .num a, .num b => a < b
  | .num _, .posInf => true
  | .negInf, .num _ => true
  | .negInf, .posInf => true
  | _, _ => false

/-- JS relational > on numbers. -/
def JSNum.gt (a b : JSNum) : Bool := JSNum.lt b a

def JSNum.isNaN : JSNum → Bool
  | .nan => true
  | _ => false

/-- JS truthiness of a number: NaN and 0 are falsy. -/
def JSNum.truthy : JSNum → Bool
  | .nan => false
  | .num q => q != 0
  | _ => true

def digitVal (c : Char) : Nat := c.toNat - 48

def isHexDigitChar (c : Char) : Bool :=
  c.isDigit || (97 ≤ c.toNat && c.toNat ≤ 102) || (65 ≤ c.toNat && c.toNat ≤ 70)

def hexVal (c : Char) : Nat :=
  if c.isDigit then digitVal c
  else if 97 ≤ c.toNat && c.toNat ≤ 102 then c.toNat - 97 + 10
  else c.toNat - 65 + 10

def digitsToNat (base : Nat) (ds : List Nat) : Nat :=
  ds.foldl (fun acc d => acc * base + d) 0

/-- The digit-consuming core of parseInt: auto-detects a 0x/0X prefix (no
radix argument is ever passed in this code base), parses the longest digit
prefix, and yields none (NaN) when no digit is found. -/
def jsParseIntCore (sign : Int) (cs : List Char) : Option Int :=
  match cs with
  | '0' :: x :: rest =>
      if x.toNat = 120 || x.toNat = 88 then
        let ds := rest.takeWhile isHexDigitChar
        if ds = [] then none
        else some (sign * (digitsToNat 16 (ds.map hexVal) : Int))
      else
        some (sign * (digitsToNat 10 (cs.takeWhile Char.isDigit |>.map digitVal) : Int))
  | _ =>
      let ds := cs.takeWhile Char.isDigit
      if ds = [] then none
      else some (sign * (digitsToNat 10 (ds.map digitVal) : Int))

/-- Model of JS parseInt (no radix argument): skips leading whitespace, reads
an optional sign, then parses digits; none stands for NaN. -/
def jsParseInt (s : String) : Option Int :=
  match s.data.dropWhile Char.isWhitespace with
  | '-' :: rest => jsParseIntCore (-1) rest
  | '+' :: rest => jsParseIntCore 1 rest
  | cs => jsParseIntCore 1 cs

/-- Exponent part of a decimal literal: e/E, optional sign, at least one
digit; parseFloat silently drops a malformed trailing exponent. -/
def parseExponent : List Char → Option Int
  | e :: rest =>
      if e.toNat = 101 || e.toNat = 69 then
        match rest with
        | '-' :: ds =>
            let d := ds.takeWhile Char.isDigit
            if d = [] then none else some (-(digitsToNat 10 (d.map digitVal) : Int))
        | '+' :: ds =>
            let d := ds.takeWhile Char.isDigit
            if d = [] then none else some (digitsToNat 10 (d.map digitVal) : Int)
        | ds =>
            let d := ds.takeWhile Char.isDigit
            if d = [] then none else some (digitsToNat 10 (d.map digitVal) : Int)
      else none
  | [] => none

/-- Mantissa-and-exponent core of parseFloat, after sign extraction: the
value sign · (ipart.fpart) · 10^exponent as an exact rational. -/
def jsParseFloatCore (sgn : Int) (cs : List Char) : JSNum :=
  if cs.take 8 = "Infinity".data then
    (if sgn < 0 then .negInf else .posInf)
  else
    let ip := cs.takeWhile Char.isDigit
    let rest := cs.drop ip.length
    let fp := match rest with
      | '.' :: r => r.takeWhile Char.isDigit
      | _ => []
    if ip = [] && fp = [] then .nan
    else
      let afterMantissa := match rest with
        | '.' :: r => r.drop fp.length
        | _ => rest
      let ex := (parseExponent afterMantissa).getD 0
      let scale : Int := ex - fp.length
      let mant : Int := sgn * (digitsToNat 10 ((ip ++ fp).map digitVal) : Int)
      if 0 ≤ scale then .num (mkRat (mant * ((10 : Nat) ^ scale.toNat : Nat)) 1)
      else .num (mkRat mant ((10 : Nat) ^ (-scale).toNat))

/-- Model of JS parseFloat: skips leading whitespace, reads an optional sign,
then the longest decimal-literal prefix (including Infinity); NaN when no
literal is found. -/
def jsParseFloat (s : String) : JSNum :=
  match s.data.dropWhile Char.isWhitespace with
  | '-' :: rest => jsParseFloatCore (-1) rest
  | '+' :: rest => jsParseFloatCore 1 rest
  | cs => jsParseFloatCore 1 cs

/-- A JavaScript value produced by reading a product field. -/
inductive JSVal
  | undefined
  | vstr (s : String)
  | vnum (q : ℚ)
  | vbool (b : Bool)
deriving DecidableEq

/-- JS truthiness: undefined, the empty string, 0 and false are falsy. -/
def JSVal.truthy : JSVal → Bool
  | .undefined => false
  | .vstr s => s != ""
  | .vnum q => q != 0
  | .vbool b => b

/-- Fractional decimal digits of r/d by long division (invariant r < d),
truncated at the given fuel; expansions occurring here terminate. -/
def fracDigits : Nat → Nat → Nat → List Char
  | 0, _, _ => []
  | _ + 1, 0, _ => []
  | fuel + 1, r, d => Char.ofNat (48 + (r * 10) / d) :: fracDigits fuel ((r * 10) % d) d

/-- Decimal rendering of a rational, mimicking Number.prototype.toString for
the finite decimal values that occur as product prices. -/
def ratToString (x : ℚ) : String :=
  let sign := if x < 0 then "-" else ""
  let n := x.num.natAbs
  let d := x.den
  let frac := fracDigits 30 (n % d) d
  if frac = [] then sign ++ toString (n / d)
  else sign ++ toString (n / d) ++ "." ++ String.mk frac

/-- String conversion (toString) of a product field value. -/
def JSVal.toStr : JSVal → String
  | .undefined => "undefined"
  | .vstr s => s
  | .vnum q => ratToString q
  | .vbool b => if b then "true" else "false"

/-- typeof v === a string. -/
def JSVal.isString : JSVal → Bool
  | .vstr _ => true
  | _ => false

/-- JS truthiness of a possibly-absent string (undefined and "" are falsy). -/
def optTruthy : Option String → Bool
  | none => false
  | some s => s != ""


/-! ## Data model -/

/-- A product record of the in-memory store (server.js). -/
structure Product where
  id : String
  name : String
  description : String
  price : ℚ
  category : String
  inStock : Bool
  createdAt : String
  updatedAt : String
deriving DecidableEq

/-- JS bracket access product[field] for the fields a product owns. -/
def Product.fieldValue (p : Product) (f : String) : JSVal :=
  if f = "id" then .vstr p.id
  else if f = "name" then .vstr p.name
  else if f = "description" then .vstr p.description
  else if f = "price" then .vnum p.price
  else if f = "category" then .vstr p.category
  else if f = "inStock" then .vbool p.inStock
  else if f = "createdAt" then .vstr p.createdAt
  else if f = "updatedAt" then .vstr p.updatedAt
  else .undefined

/-- An Express query-string value: absent, a single string, or an array of
strings (repeated keys). -/
inductive QVal
  | undefined
  | str (s : String)
  | arr (l : List String)
deriving DecidableEq

/-- JS truthiness of a query value: any array is truthy, a string is truthy
when nonempty. -/
def QVal.truthy : QVal → Bool
  | .undefined => false
  | .str s => s != ""
  | .arr _ => true

/-- The raw query-string input consumed by the QueryProcessor parsers;
category is the one key the code reads as string-or-array. -/
structure Query where
  page : Option String
  limit : Option String
  category : QVal
  minPrice : Option String
  maxPrice : Option String
  inStock : Option String
  q : Option String
  search : Option String
  fields : Option String
  sortBy : Option String
  sortOrder : Option String
deriving DecidableEq

/-- The all-absent query. -/
def Query.empty : Query :=
  ⟨none, none, .undefined, none, none, none, none, none, none, none, none⟩

/-! ## QueryProcessor: parsing -/

/-- The pagination object produced by parsePagination. -/
structure Pagination where
  page : Int
  limit : Int
  skip : Int
  offset : Int
deriving DecidableEq

/-- parseInt(v) || d — both NaN and 0 fall back to the default. -/
def intOrDefault (v : Option String) (d : Int) : Int :=
  match v with
  | none => d
  | some s =>
    match jsParseInt s with
    | none => d
    | some n => if n = 0 then d else n

/-- QueryProcessor.parsePagination (utils/queryHelpers.js): defaulting
parse of page and limit, then range validation. -/
def parsePagination (query : Query) : Except String Pagination :=
  let page := intOrDefault query.page 1
  let limit := intOrDefault query.limit 10
  let skip := (page - 1) * limit
  if page < 1 then .error "Page number must be greater than 0"
  else if limit < 1 || limit > 100 then .error "Limit must be between 1 and 100"
  else .ok ⟨page, limit, skip, skip⟩

/-- The price-range member of a FilterSet; each bound is present only when
the corresponding query key was truthy. -/
structure PriceRange where
  min : Option JSNum
  max : Option JSNum
deriving DecidableEq

/-- The FilterSet produced by parseFilters. -/
structure Filters where
  category : Option (List String)
  price : Option PriceRange
  inStock : Option Bool
deriving DecidableEq

def validCategories : List String :=
  ["electronics", "kitchen", "clothing", "books", "sports", "toys", "other"]

/-- JS truthiness of a possibly-absent number. -/
def optNumTruthy : Option JSNum → Bool
  | some v => v.truthy
  | none => false

/-- The category block of parseFilters: case-folds the one-or-many supplied
values and rejects any outside the fixed enumeration. -/
def parseCategoryFilter (query : Query) : Except String (Option (List String)) :=
  if query.category.truthy then
    let categories := match query.category with
      | .arr l => l.map jsToLower
      | .str s => [jsToLower s]
      | .undefined => []
    let invalidCategories := categories.filter (fun c => !(validCategories.contains c))
    if invalidCategories ≠ [] then
      .error ("Invalid categories: " ++ String.intercalate ", " invalidCategories ++
        ". Valid categories: " ++ String.intercalate ", " validCategories)
    else .ok (some categories)
  else .ok none

/-- One price bound of parseFilters: parsed when the raw value is truthy,
rejected when NaN or negative. -/
def parsePriceBound (v : Option String) (msg : String) :
    Except String (Option JSNum) :=
  if optTruthy v then
    if (jsParseFloat (v.getD "")).isNaN ||
        JSNum.lt (jsParseFloat (v.getD "")) (.num 0) then .error msg
    else .ok (some (jsParseFloat (v.getD "")))
  else .ok none

/-- The price block of parseFilters: both bounds, then the min>max check,
which runs only when both stored bounds are truthy numbers. -/
def parsePriceFilter (query : Query) : Except String (Option PriceRange) :=
  if optTruthy query.minPrice || optTruthy query.maxPrice then do
    let pmin ← parsePriceBound query.minPrice
      "minPrice must be a valid positive number"
    let pmax ← parsePriceBound query.maxPrice
      "maxPrice must be a valid positive number"
    if optNumTruthy pmin && optNumTruthy pmax &&
        JSNum.gt (pmin.getD .nan) (pmax.getD .nan) then
      throw "minPrice cannot be greater than maxPrice"
    else pure (some ⟨pmin, pmax⟩)
  else pure none

/-- The stock block of parseFilters: only the literal strings "true" and
"false" are accepted when the key is present. -/
def parseStockFilter (query : Query) : Except String (Option Bool) :=
  match query.inStock with
  | none => .ok none
  | some s =>
    if s = "true" then .ok (some true)
    else if s = "false" then .ok (some false)
    else .error "inStock must be \"true\" or \"false\""

/-- QueryProcessor.parseFilters (utils/queryHelpers.js): the category, price
and stock blocks in source order, failing fast. -/
def parseFilters (query : Query) : Except String Filters := do
  let categoryFilter ← parseCategoryFilter query
  let priceFilter ← parsePriceFilter query
  let stockFilter ← parseStockFilter query
  pure ⟨categoryFilter, priceFilter, stockFilter⟩

/-- The SortSpec produced by parseSorting. -/
structure SortSpec where
  field : String
  order : String
deriving DecidableEq

def validSortFields : List String :=
  ["name", "price", "category", "inStock", "createdAt", "updatedAt"]

/-- QueryProcessor.parseSorting (utils/queryHelpers.js): a truthy sortBy is
validated against the fixed field list and sortOrder is normalized (only the
literal "desc" selects descending); otherwise the default createdAt/desc. -/
def parseSorting (query : Query) : Except String SortSpec :=
  if optTruthy query.sortBy then
    let s := query.sortBy.getD ""
    if !(validSortFields.contains s) then
      .error ("Invalid sortBy field. Valid fields: " ++
        String.intercalate ", " validSortFields)
    else
      .ok ⟨s, if query.sortOrder = some "desc" then "desc" else "asc"⟩
  else
    .ok ⟨"createdAt", "desc"⟩

/-- The SearchSpec consumed by applySearch. -/
structure SearchSpec where
  term : Option String
  fields : List String
deriving DecidableEq

/-! ## QueryProcessor: transformations -/

/-- QueryProcessor.applyFilters (utils/queryHelpers.js): conjunction of the
active category, price-bound and stock predicates; each price bound is
checked only when its stored value is truthy. -/
def applyFilters (products : List Product) (filters : Filters) : List Product :=
  products.filter fun product =>
    (match filters.category with
     | some cats => cats.contains product.category
     | none => true) &&
    (match filters.price with
     | some pr =>
       !(optNumTruthy pr.min && JSNum.lt (.num product.price) (pr.min.getD .nan)) &&
       !(optNumTruthy pr.max && JSNum.gt (.num product.price) (pr.max.getD .nan))
     | none => true) &&
    (match filters.inStock with
     | some b => product.inStock == b
     | none => true)

/-- QueryProcessor.applySearch (utils/queryHelpers.js): pass-through when no
term is set; otherwise keeps the products for which some configured field is
truthy and its lowercased string form contains the term. -/
def applySearch (products : List Product) (search : SearchSpec) : List Product :=
  if !(optTruthy search.term) then products
  else
    products.filter fun product =>
      search.fields.any fun f =>
        let fieldValue := product.fieldValue f
        fieldValue.truthy &&
          jsIncludes (jsToLower fieldValue.toStr) (search.term.getD "")

/-- toLowerCase applied to a field value; the code only reaches this on
string values (it guards on typeof aValue). -/
def lowerIfString : JSVal → JSVal
  | .vstr s => .vstr (jsToLower s)
  | v => v

/-- Numeric coercion of a comparison operand; the string case is modelled as
NaN and is never exercised here, because the two compared field values of a
fixed sort field always share a type. -/
def JSVal.toNum : JSVal → JSNum
  | .undefined => .nan
  | .vstr _ => .nan
  | .vnum q => .num q
  | .vbool b => .num (if b then 1 else 0)

/-- JS relational > on product field values: two strings compare by
code-unit lexicographic order, anything else numerically after coercion. -/
def jsValGt : JSVal → JSVal → Bool
  | .vstr a, .vstr b => charListLt b.data a.data
  | a, b => JSNum.gt a.toNum b.toNum

/-- JS relational < on product field values. -/
def jsValLt (a b : JSVal) : Bool := jsValGt b a

/-- The comparator closure passed to Array.prototype.sort by
QueryProcessor.applySorting: reads the sort field of both products,
lowercases both when the first is a string, and orders ascending or
descending according to the SortSpec. -/
def sortComparator (sort : SortSpec) (a b : Product) : Int :=
  let aValue := a.fieldValue sort.field
  let bValue := b.fieldValue sort.field
  let aV := if aValue.isString then lowerIfString aValue else aValue
  let bV := if aValue.isString then lowerIfString bValue else bValue
  if sort.order = "desc" then
    if jsValGt bV aV then 1 else if jsValLt bV aV then -1 else 0
  else
    if jsValGt aV bV then 1 else if jsValLt aV bV then -1 else 0

/-- The ordering induced by the comparator: a may stay before b when
comparator(a,b) ≤ 0. -/
def sortLe (sort : SortSpec) (a b : Product) : Prop :=
  sortComparator sort a b ≤ 0

instance (sort : SortSpec) (a b : Product) : Decidable (sortLe sort a b) :=
  inferInstanceAs (Decidable (_ ≤ _))

/-- QueryProcessor.applySorting, as the pure sorted result:
Array.prototype.sort is stable (ES2019) and the comparators arising here are
consistent, so the result is the unique stable sort, modelled by insertion
sort under the comparator-induced ordering. -/
def applySorting (products : List Product) (sort : SortSpec) : List Product :=
  List.insertionSort (sortLe sort) products

/-- QueryProcessor.applySorting as a call on a mutable array:
Array.prototype.sort sorts the receiver in place and returns a reference to
it, so the pair is (return value, state of the argument array after the
call). -/
def applySortingCall (products : List Product) (sort : SortSpec) :
    List Product × List Product :=
  (applySorting products sort, applySorting products sort)

/-- The pagination metadata block built by applyPagination. -/
structure PageMeta where
  currentPage : Int
  totalPages : Int
  totalItems : Int
  itemsPerPage : Int
  hasNextPage : Bool
  hasPrevPage : Bool
deriving DecidableEq

/-- The value returned by applyPagination. -/
structure PageResult where
  data : List Product
  pagination : PageMeta
deriving DecidableEq

/-- JS Array.prototype.slice with two integer arguments: negative indices
count from the end, and both are clamped to [0, length]. -/
def jsSlice {α : Type} (l : List α) (start stop : Int) : List α :=
  let n := (l.length : Int)
  let s := if start < 0 then max (n + start) 0 else min start n
  let e := if stop < 0 then max (n + stop) 0 else min stop n
  (l.drop s.toNat).take (e.toNat - s.toNat)

/-- Math.ceil(length / limit) at exact rational level; the upstream
validator guarantees limit ∈ [1,100], where float and rational division have
the same ceiling. -/
def mathCeilDiv (n : Nat) (limit : Int) : Int := ⌈(n : ℚ) / (limit : ℚ)⌉

/-- QueryProcessor.applyPagination (utils/queryHelpers.js). -/
def applyPagination (products : List Product) (pagination : Pagination) :
    PageResult :=
  let startIndex := pagination.skip
  let endIndex := startIndex + pagination.limit
  ⟨jsSlice products startIndex endIndex,
   ⟨pagination.page,
    mathCeilDiv products.length pagination.limit,
    (products.length : Int),
    pagination.limit,
    decide (endIndex < (products.length : Int)),
    decide (pagination.page > 1)⟩⟩

/-- The GET /api/products handler core (server.js): copies the store, applies
search when a term is set, then filters, then sorting, then pagination. -/
def listProductsHandler (products : List Product) (filters : Filters)
    (search : SearchSpec) (sort : SortSpec) (pagination : Pagination) :
    PageResult :=
  let processed := products
  let processed :=
    if optTruthy search.term then applySearch processed search else processed
  let processed := applyFilters processed filters
  let processed := applySorting processed sort
  applyPagination processed pagination

/-- The sequence the GET /api/products handler passes to applySearch: the
fresh copy of the store, before any other transformation has run. -/
def handlerSearchInput (products : List Product) (_filters : Filters) :
    List Product :=
  products

/-- The sequence the GET /api/products handler passes to applyFilters: the
result of the search stage. -/
def handlerFilterInput (products : List Product) (search : SearchSpec) :
    List Product :=
  if optTruthy search.term then applySearch products search else products

/-! ## StatsCalculator: per-category statistics -/

/-- The lightweight product summary embedded in category stats. -/
structure ProductSummary where
  id : String
  name : String
  price : ℚ
  inStock : Bool
deriving DecidableEq

/-- The mutable per-category accumulator object of calculateCategoryStats,
before the finalization pass. -/
structure CatAcc where
  count : Nat
  inStock : Nat
  outOfStock : Nat
  totalValue : ℚ
  averagePrice : ℚ
  minPrice : JSNum
  maxPrice : JSNum
  products : List ProductSummary
deriving DecidableEq

/-- The freshly created accumulator, with the ±Infinity min/max sentinels. -/
def freshCatAcc : CatAcc := ⟨0, 0, 0, 0, 0, .posInf, .negInf, []⟩

/-- Math.min on JS numbers (NaN propagates). -/
def jsMin : JSNum → JSNum → JSNum
  | .nan, _ => .nan
  | _, .nan => .nan
  | .negInf, _ => .negInf
  | _, .negInf => .negInf
  | .posInf, b => b
  | a, .posInf => a
  | .num a, .num b => .num (min a b)

/-- Math.max on JS numbers (NaN propagates). -/
def jsMax : JSNum → JSNum → JSNum
  | .nan, _ => .nan
  | _, .nan => .nan
  | .posInf, _ => .posInf
  | _, .posInf => .posInf
  | .negInf, b => b
  | a, .negInf => a
  | .num a, .num b => .num (max a b)

/-- One accumulation step of calculateCategoryStats for a product of the
entry's category. -/
def updateCatAcc (acc : CatAcc) (p : Product) : CatAcc :=
  ⟨acc.count + 1,
   acc.inStock + (if p.inStock then 1 else 0),
   acc.outOfStock + (if p.inStock then 0 else 1),
   acc.totalValue + p.price,
   acc.averagePrice,
   jsMin acc.minPrice (.num p.price),
   jsMax acc.maxPrice (.num p.price),
   acc.products ++ [⟨p.id, p.name, p.price, p.inStock⟩]⟩

/-- Processing one product: create the category entry if missing (object keys
keep insertion order), then update it. -/
def insertProduct (m : List (String × CatAcc)) (p : Product) :
    List (String × CatAcc) :=
  let m1 := if (m.lookup p.category).isNone then m ++ [(p.category, freshCatAcc)] else m
  m1.map fun e => if e.1 = p.category then (e.1, updateCatAcc e.2 p) else e

/-- The accumulation pass of calculateCategoryStats. -/
def accumulateCategories (products : List Product) : List (String × CatAcc) :=
  products.foldl insertProduct []

/-- The finalized per-category statistics record. -/
structure CatStats where
  count : Nat
  inStock : Nat
  outOfStock : Nat
  totalValue : ℚ
  averagePrice : ℚ
  minPrice : JSNum
  maxPrice : JSNum
  products : List ProductSummary
  stockPercentage : ℚ
deriving DecidableEq

/-- parseFloat(x.toFixed(2)), modelled as rounding to 2 decimal places at
exact rational level. -/
def round2 (q : ℚ) : ℚ := (round (q * 100) : ℚ) / 100

/-- The finalization pass of calculateCategoryStats on one entry: averages
and percentages (count is at least 1 for every accumulated entry), rounding,
and the resolution of a surviving ±Infinity sentinel to 0. -/
def finalizeCatAcc (acc : CatAcc) : CatStats :=
  ⟨acc.count, acc.inStock, acc.outOfStock,
   round2 acc.totalValue,
   round2 (acc.totalValue / (acc.count : ℚ)),
   (if acc.minPrice = .posInf then .num 0 else acc.minPrice),
   (if acc.maxPrice = .negInf then .num 0 else acc.maxPrice),
   acc.products,
   round2 ((acc.inStock : ℚ) / (acc.count : ℚ) * 100)⟩

/-- StatsCalculator.calculateCategoryStats (utils/statsCalculator.js):
accumulate per category, then finalize every entry. -/
def calculateCategoryStats (products : List Product) :
    List (String × CatStats) :=
  (accumulateCategories products).map fun e => (e.1, finalizeCatAcc e.2)

/-! ## Error taxonomy -/

/-- A single-quote character for building messages that quote identifiers. -/
def quoteChar : String := String.singleton (Char.ofNat 39)

/-- The error taxonomy (errors/*.js): the base CustomError plus its four
subclasses, each carrying its kind-specific payload and the timestamp taken
at construction. -/
inductive CustomErr
  | base (message : String) (statusCode : Int) (errorCode : String)
      (timestamp : String)
  | validation (message : String) (details : List String)
      (field : Option String) (timestamp : String)
  | notFound (resource : String) (resourceId : Option String)
      (timestamp : String)
  | authentication (message : String) (reason : String) (timestamp : String)
  | authorization (message : String) (requiredPermission : Option String)
      (requiredRole : Option String) (timestamp : String)
deriving DecidableEq

/-- The message computed by the NotFoundError constructor. -/
def notFoundMessage (resource : String) (resourceId : Option String) : String :=
  if optTruthy resourceId then
    resource ++ " with ID " ++ quoteChar ++ resourceId.getD "" ++ quoteChar ++
      " not found"
  else resource ++ " not found"

def CustomErr.message : CustomErr → String
  | .base m _ _ _ => m
  | .validation m _ _ _ => m
  | .notFound r rid _ => notFoundMessage r rid
  | .authentication m _ _ => m
  | .authorization m _ _ _ => m

def CustomErr.statusCode : CustomErr → Int
  | .base _ sc _ _ => sc
  | .validation _ _ _ _ => 400
  | .notFound _ _ _ => 404
  | .authentication _ _ _ => 401
  | .authorization _ _ _ _ => 403

def CustomErr.errorCode : CustomErr → String
  | .base _ _ ec _ => ec
  | .validation _ _ _ _ => "VALIDATION_ERROR"
  | .notFound _ _ _ => "RESOURCE_NOT_FOUND"
  | .authentication _ _ _ => "AUTHENTICATION_ERROR"
  | .authorization _ _ _ _ => "AUTHORIZATION_ERROR"

def CustomErr.timestamp : CustomErr → String
  | .base _ _ _ t => t
  | .validation _ _ _ t => t
  | .notFound _ _ t => t
  | .authentication _ _ t => t
  | .authorization _ _ _ t => t

/-- NotFoundError.getSuggestions. -/
def notFoundSuggestions (resource : String) : List String :=
  (if resource = "Product" then
    ["Check if the product ID is correct",
     "Use GET /api/products to list all available products",
     "Ensure the product exists and hasn" ++ quoteChar ++ "t been deleted"]
   else []) ++
  (if resource = "Route" then
    ["Check the API documentation for valid endpoints",
     "Ensure you" ++ quoteChar ++ "re using the correct HTTP method",
     "Verify the URL path is correct"]
   else [])

/-- AuthenticationError.getHints. -/
def authHints (reason : String) : List String :=
  if reason = "MISSING_API_KEY" then
    ["Add header: X-API-Key: dev-key-12345",
     "Include the API key in your request headers"]
  else if reason = "INVALID_API_KEY" then
    ["Use one of: dev-key-12345, test-key-67890, admin-key-abcdef",
     "Check if your API key is spelled correctly"]
  else if reason = "EXPIRED_API_KEY" then
    ["Contact administrator for a new API key",
     "Check if your subscription is still active"]
  else []

/-- AuthorizationError.getSolutions. -/
def authzSolutions (perm role : Option String) : List String :=
  (if optTruthy perm then
    ["Ensure your API key has " ++ quoteChar ++ perm.getD "" ++ quoteChar ++
       " permission",
     "Contact administrator to upgrade your access level"]
   else []) ++
  (if optTruthy role then
    ["This operation requires " ++ quoteChar ++ role.getD "" ++ quoteChar ++
       " role",
     "Use an API key with appropriate role privileges"]
   else []) ++
  ["Check the API documentation for required permissions"]

/-- The structured form an error renders to; optional fields are those the
overrides spread in conditionally. Stack trace and class name are only added
in development mode; the non-development runtime is modelled. -/
structure ErrJSON where
  success : Bool
  message : String
  error : String
  statusCode : Int
  timestamp : String
  details : Option (List String)
  field : Option String
  errorType : Option String
  resource : Option String
  resourceId : Option String
  reason : Option String
  hints : Option (List String)
  requiredPermission : Option String
  requiredRole : Option String
  suggestions : Option (List String)
  solutions : Option (List String)
deriving DecidableEq

/-- CustomError.toJSON and the subclass overrides: every kind spreads the
base form {success:false, message, error, statusCode, timestamp} and adds its
own fields, some only when truthy. -/
def CustomErr.toJSON : CustomErr → ErrJSON
  | .base m sc ec t =>
      ⟨false, m, ec, sc, t,
       none, none, none, none, none, none, none, none, none, none, none⟩
  | .validation m d f t =>
      ⟨false, m, "VALIDATION_ERROR", 400, t,
       some d, (if optTruthy f then f else none), some "validation",
       none, none, none, none, none, none, none, none⟩
  | .notFound r rid t =>
      ⟨false, notFoundMessage r rid, "RESOURCE_NOT_FOUND", 404, t,
       none, none, some "not_found", some r,
       (if optTruthy rid then rid else none),
       none, none, none, none, some (notFoundSuggestions r), none⟩
  | .authentication m reason t =>
      ⟨false, m, "AUTHENTICATION_ERROR", 401, t,
       none, none, some "authentication", none, none,
       some reason, some (authHints reason), none, none, none, none⟩
  | .authorization m perm role t =>
      ⟨false, m, "AUTHORIZATION_ERROR", 403, t,
       none, none, some "authorization", none, none, none, none,
       (if optTruthy perm then perm else none),
       (if optTruthy role then role else none),
       none, some (authzSolutions perm role)⟩

/-- ErrorFactory.notFound (errors/index.js). -/
def ErrorFactory.notFound (resource : String) (resourceId : Option String)
    (now : String) : CustomErr :=
  .notFound resource resourceId now

/-- A native (non-taxonomy) JS error as consumed by the factory. -/
structure NativeError where
  name : String
  message : String
  statusCode : Option Int
  code : Option String
deriving DecidableEq

/-- An arbitrary thrown error reaching the factory: either already an
instance of the taxonomy or a native error. -/
inductive JSError
  | cust (e : CustomErr)
  | native (e : NativeError)
deriving DecidableEq

/-- ErrorFactory.fromNativeError (errors/index.js): taxonomy instances pass
through unchanged; known native kinds map to ValidationError; anything else
falls through to a generic CustomError with truthiness-based defaults. -/
def ErrorFactory.fromNativeError (now : String) (err : JSError) : CustomErr :=
  match err with
  | .cust e => e
  | .native e =>
    if e.name = "ValidationError" then
      .validation e.message [e.message] none now
    else if e.name = "CastError" then
      .validation "Invalid data format" [e.message] none now
    else if e.name = "SyntaxError" && jsIncludes e.message "JSON" then
      .validation "Invalid JSON format" ["Request body must be valid JSON"]
        none now
    else
      .base (if e.message != "" then e.message else "Internal server error")
        (match e.statusCode with
         | some sc => if sc != 0 then sc else 500
         | none => 500)
        (match e.code with
         | some c => if c != "" then c else "INTERNAL_ERROR"
         | none => "INTERNAL_ERROR")
        now

/-! ## Concrete sample values -/

/-- A sample in-stock electronics product. -/
def prodA : Product :=
  ⟨"1", "Gaming Laptop", "High-performance laptop", 2, "electronics", true,
   "2024-01-15T10:30:00Z", "2024-01-15T10:30:00Z"⟩

/-- A sample out-of-stock kitchen product. -/
def prodB : Product :=
  ⟨"3", "Coffee Maker", "Programmable drip coffee maker", 1, "kitchen", false,
   "2024-01-08T09:15:00Z", "2024-01-20T16:45:00Z"⟩

/-- A query whose page is the numeric string "0". -/
def queryPageZero : Query :=
  ⟨some "0", none, .undefined, none, none, none, none, none, none, none, none⟩

/-- A query with minPrice=5 and maxPrice=0. -/
def queryMinMax : Query :=
  ⟨none, none, .undefined, some "5", some "0", none, none, none, none, none, none⟩

/-- A search spec scanning the inStock field for the term "false". -/
def searchFalse : SearchSpec := ⟨some "false", ["inStock"]⟩

/-- A search spec scanning the default fields for the term "gam". -/
def searchGam : SearchSpec := ⟨some "gam", ["name", "description"]⟩

/-- A filter keeping only out-of-stock products. -/
def filterOutOfStock : Filters := ⟨none, none, some false⟩

/-- Sorting by price ascending. -/
def sortPriceAsc : SortSpec := ⟨"price", "asc"⟩

/-! ## C10: the classification factory is idempotent -/

/-- C10: for every error already an instance of the taxonomy the factory
returns it unchanged, so applying the factory twice to any error (at any
construction times) gives the same result as applying it once. -/
theorem fromNativeError_idempotent :
    ∀ (now now2 : String) (c : CustomErr) (e : JSError),
      ErrorFactory.fromNativeError now (.cust c) = c ∧
      ErrorFactory.fromNativeError now2
          (.cust (ErrorFactory.fromNativeError now e)) =
        ErrorFactory.fromNativeError now e := by
  intro now now2 c e
  exact ⟨rfl, rfl⟩

/-! ## C9: structured rendering of every error kind -/

/-- C9: every error of the taxonomy renders to a structured form carrying
success:false, the message, the machine-readable code under error, the HTTP
statusCode and the timestamp; and a NotFound error built for a product id
carries status 404, code RESOURCE_NOT_FOUND, resource "Product" and the
offending resourceId. -/
theorem toJSON_structured :
    ∀ e : CustomErr,
      (e.toJSON.success = false ∧
       e.toJSON.message = e.message ∧
       e.toJSON.error = e.errorCode ∧
       e.toJSON.statusCode = e.statusCode ∧
       e.toJSON.timestamp = e.timestamp) ∧
      (∀ (pid ts : String), pid ≠ "" →
        (ErrorFactory.notFound "Product" (some pid) ts).statusCode = 404 ∧
        (ErrorFactory.notFound "Product" (some pid) ts).errorCode =
          "RESOURCE_NOT_FOUND" ∧
        (ErrorFactory.notFound "Product" (some pid) ts).toJSON.resource =
          some "Product" ∧
        (ErrorFactory.notFound "Product" (some pid) ts).toJSON.resourceId =
          some pid) := by
  intro e
  constructor
  · cases e <;>
      simp [CustomErr.toJSON, CustomErr.message, CustomErr.errorCode,
        CustomErr.statusCode, CustomErr.timestamp]
  · intro pid ts hpid
    refine ⟨rfl, rfl, rfl, ?_⟩
    simp [ErrorFactory.notFound, CustomErr.toJSON, optTruthy, hpid]

/-- Witness for C9 at a concrete error and product id. -/
theorem toJSON_structured_witness :
    (ErrorFactory.notFound "Product" (some "42") "T").statusCode = 404 ∧
    (ErrorFactory.notFound "Product" (some "42") "T").toJSON.resource =
      some "Product" ∧
    (ErrorFactory.notFound "Product" (some "42") "T").toJSON.resourceId =
      some "42" := by
  have h := (toJSON_structured (.base "x" 500 "INTERNAL_ERROR" "T")).2 "42" "T"
    (by decide)
  exact ⟨h.1, h.2.2.1, h.2.2.2⟩

/-! ## C5: parseSorting normalization -/

/-- C5 counterexample: on the empty query parseSorting returns order "desc"
although sortOrder is not the literal "desc", so descending is not selected
only by that literal. -/
theorem parseSorting_counterexample :
    parseSorting Query.empty = .ok ⟨"createdAt", "desc"⟩ ∧
    Query.empty.sortOrder ≠ some "desc" := by
  exact ⟨rfl, by decide⟩

/-- C5 amended: when sortBy is truthy and valid, the order is "desc" exactly
when sortOrder is the literal "desc" and "asc" otherwise; when sortBy is
truthy and invalid parseSorting fails; when sortBy is unspecified (absent or
empty) the result is createdAt/desc regardless of sortOrder. -/
theorem parseSorting_spec :
    ∀ q : Query,
      (optTruthy q.sortBy = false →
        parseSorting q = .ok ⟨"createdAt", "desc"⟩) ∧
      (∀ s, q.sortBy = some s → s ≠ "" →
        validSortFields.contains s = true →
        ∃ spec, parseSorting q = .ok spec ∧ spec.field = s ∧
          (spec.order = "desc" ↔ q.sortOrder = some "desc") ∧
          (spec.order = "desc" ∨ spec.order = "asc")) ∧
      (∀ s, q.sortBy = some s → s ≠ "" →
        validSortFields.contains s = false →
        ∃ msg, parseSorting q = .error msg) := by
  intro q
  refine ⟨?_, ?_, ?_⟩
  · intro h
    simp [parseSorting, h]
  · intro s hs hne hvalid
    have ht : optTruthy q.sortBy = true := by
      simp [optTruthy, hs, hne]
    have hmem : s ∈ validSortFields := by simpa using hvalid
    refine ⟨⟨s, if q.sortOrder = some "desc" then "desc" else "asc"⟩, ?_, rfl, ?_, ?_⟩
    · simp [parseSorting, ht, hs, optTruthy, hne, hmem]
    · by_cases hd : q.sortOrder = some "desc" <;> simp [hd]
    · by_cases hd : q.sortOrder = some "desc" <;> simp [hd]
  · intro s hs hne hinvalid
    have ht : optTruthy q.sortBy = true := by
      simp [optTruthy, hs, hne]
    have hmem : s ∉ validSortFields := by simpa using hinvalid
    refine ⟨"Invalid sortBy field. Valid fields: " ++
      String.intercalate ", " validSortFields, ?_⟩
    simp [parseSorting, ht, hs, optTruthy, hne, hmem]

/-- Witness for C5 at a concrete query: sortBy=price with sortOrder absent
parses to ascending price. -/
theorem parseSorting_spec_witness :
    ∃ spec, parseSorting
        ⟨none, none, .undefined, none, none, none, none, none, none,
         some "price", none⟩ = .ok spec ∧
      spec.field = "price" ∧
      (spec.order = "desc" ↔
        (⟨none, none, .undefined, none, none, none, none, none, none,
          some "price", none⟩ : Query).sortOrder = some "desc") ∧
      (spec.order = "desc" ∨ spec.order = "asc") := by
  exact (parseSorting_spec _).2.1 "price" rfl (by decide) (by decide)

/-! ## C3: parsePagination defaulting and validation -/

/-- C3 counterexample: page="0" is a numeric value below 1, yet
parsePagination does not fail — the JS falsiness of 0 makes it fall back to
the default page 1. -/
theorem parsePagination_counterexample :
    jsParseInt "0" = some 0 ∧ (0 : Int) < 1 ∧
    parsePagination queryPageZero = .ok ⟨1, 10, 0, 0⟩ :=
  ⟨by decide, by decide, rfl⟩

/-- intOrDefault in terms of the parsed value of the raw string. -/
theorem intOrDefault_eq (v : Option String) (d : Int) :
    intOrDefault v d =
      match v.bind jsParseInt with
      | none => d
      | some n => if n = 0 then d else n := by
  cases v <;> rfl

/-- parsePagination fails exactly when a defaulted parse lands out of
range. -/
theorem parsePagination_eq (q : Query) :
    parsePagination q =
      (if intOrDefault q.page 1 < 1 then
        Except.error "Page number must be greater than 0"
      else if (decide (intOrDefault q.limit 10 < 1) ||
          decide (intOrDefault q.limit 10 > 100)) = true then
        Except.error "Limit must be between 1 and 100"
      else
        Except.ok ⟨intOrDefault q.page 1, intOrDefault q.limit 10,
          (intOrDefault q.page 1 - 1) * intOrDefault q.limit 10,
          (intOrDefault q.page 1 - 1) * intOrDefault q.limit 10⟩) := rfl

/-- parsePagination fails exactly when a defaulted parse lands out of
range. -/
theorem parsePagination_isError_iff (q : Query) :
    ((parsePagination q).isOk = false ↔
      (intOrDefault q.page 1 < 1 ∨
        (intOrDefault q.limit 10 < 1 ∨ 100 < intOrDefault q.limit 10))) := by
  rw [parsePagination_eq]
  split
  · rename_i h
    exact iff_of_true rfl (Or.inl h)
  · split
    · rename_i h1 h2
      simp only [Bool.or_eq_true, decide_eq_true_eq] at h2
      exact iff_of_true rfl (Or.inr h2)
    · rename_i h1 h2
      simp only [Bool.or_eq_true, decide_eq_true_eq, not_or] at h2
      push_neg at h1
      refine iff_of_false ?_ (by omega)
      simp [Except.isOk, Except.toBool]

/-- An out-of-range condition on a defaulted parse holds exactly when the
raw value parses to a nonzero numeric satisfying it (the default itself not
satisfying it). -/
theorem intOrDefault_out_iff (v : Option String) (d : Int) (P : Int → Prop)
    [DecidablePred P] (hdP : ¬ P d) :
    P (intOrDefault v d) ↔ ∃ n, v.bind jsParseInt = some n ∧ n ≠ 0 ∧ P n := by
  rw [intOrDefault_eq]
  rcases h : v.bind jsParseInt with _ | n
  · simp [hdP]
  · by_cases hn : n = 0
    · simp [hn, hdP]
    · simp [hn]

/-- C3 amended: parsePagination fails exactly when page parses to a nonzero
numeric below 1 or limit parses to a nonzero numeric outside [1,100]; a
numeric 0, like unparsable input, falls back to the defaults 1 and 10; on
success skip = (page-1)·limit and the parsed in-range values are returned. -/
theorem parsePagination_spec :
    ∀ q : Query,
      (((parsePagination q).isOk = false) ↔
        ((∃ n, q.page.bind jsParseInt = some n ∧ n ≠ 0 ∧ n < 1) ∨
         (∃ m, q.limit.bind jsParseInt = some m ∧ m ≠ 0 ∧
            (m < 1 ∨ 100 < m)))) ∧
      (∀ pag, parsePagination q = .ok pag →
        pag.skip = (pag.page - 1) * pag.limit ∧
        pag.offset = pag.skip ∧
        ((q.page.bind jsParseInt = none ∨ q.page.bind jsParseInt = some 0) →
          pag.page = 1) ∧
        (∀ n, q.page.bind jsParseInt = some n → n ≠ 0 → pag.page = n) ∧
        ((q.limit.bind jsParseInt = none ∨ q.limit.bind jsParseInt = some 0) →
          pag.limit = 10) ∧
        (∀ m, q.limit.bind jsParseInt = some m → m ≠ 0 → pag.limit = m)) := by
  intro q
  constructor
  · rw [parsePagination_isError_iff,
      intOrDefault_out_iff q.page 1 (fun n => n < 1) (by omega),
      intOrDefault_out_iff q.limit 10 (fun m => m < 1 ∨ 100 < m) (by omega)]
  · intro pag hok
    have hshape :
        1 ≤ intOrDefault q.page 1 ∧
        pag = ⟨intOrDefault q.page 1, intOrDefault q.limit 10,
          (intOrDefault q.page 1 - 1) * intOrDefault q.limit 10,
          (intOrDefault q.page 1 - 1) * intOrDefault q.limit 10⟩ := by
      rw [parsePagination_eq] at hok
      split at hok
      · exact absurd hok (by simp)
      · split at hok
        · exact absurd hok (by simp)
        · rename_i h1 h2
          push_neg at h1
          cases hok
          exact ⟨h1, rfl⟩
    rcases hshape with ⟨hge1, rfl⟩
    refine ⟨rfl, rfl, ?_, ?_, ?_, ?_⟩
    · intro h
      rcases h with h | h <;> simp [intOrDefault_eq, h]
    · intro n hn hne
      simp [intOrDefault_eq, hn, hne]
    · intro h
      rcases h with h | h <;> simp [intOrDefault_eq, h]
    · intro m hm hne
      simp [intOrDefault_eq, hm, hne]

/-- Witness for C3 at a concrete query: page=3, limit=20 are in range and
returned with skip = 40 = (3-1)·20. -/
theorem parsePagination_spec_witness :
    (⟨3, 20, 40, 40⟩ : Pagination).skip =
      ((⟨3, 20, 40, 40⟩ : Pagination).page - 1) *
        (⟨3, 20, 40, 40⟩ : Pagination).limit ∧
    (⟨3, 20, 40, 40⟩ : Pagination).page = 3 := by
  have h := (parsePagination_spec
    ⟨some "3", some "20", .undefined, none, none, none, none, none, none,
     none, none⟩).2 ⟨3, 20, 40, 40⟩ rfl
  exact ⟨h.1, h.2.2.2.1 3 (by decide) (by decide)⟩

/-! ## C4: the price-range validation of parseFilters -/

/-- Monadic bind on a successful Except computation. -/
theorem exceptBindOk {α β : Type} (a : α) (f : α → Except String β) :
    (Except.ok a >>= f) = f a := rfl

/-- Monadic bind on a failed Except computation. -/
theorem exceptBindErr {α β : Type} (e : String) (f : α → Except String β) :
    ((Except.error e : Except String α) >>= f) =
      (Except.error e : Except String β) := rfl

/-- C4 counterexample: minPrice=5 and maxPrice=0 are both non-negative
numbers with min > max, yet parseFilters succeeds and returns the price
range {min 5, max 0} — the truthiness guard skips the min>max check because
the number 0 is falsy. -/
theorem parseFilters_counterexample :
    jsParseFloat "5" = .num 5 ∧ jsParseFloat "0" = .num 0 ∧
    (0 : ℚ) ≤ 5 ∧ (0 : ℚ) ≤ 0 ∧ (0 : ℚ) < 5 ∧
    parseFilters queryMinMax =
      .ok ⟨none, some ⟨some (.num 5), some (.num 0)⟩, none⟩ :=
  ⟨by decide, by decide, by decide, by decide, by decide, rfl⟩

/-- parseFilters as the bind chain of its three blocks. -/
theorem parseFilters_eq (q : Query) :
    parseFilters q =
      (parseCategoryFilter q).bind fun c =>
        (parsePriceFilter q).bind fun p =>
          (parseStockFilter q).bind fun s => .ok ⟨c, p, s⟩ := rfl

/-- A successful parseFilters run carries exactly the price block result. -/
theorem parseFilters_price_of_ok (q : Query) (f : Filters)
    (h : parseFilters q = .ok f) : parsePriceFilter q = .ok f.price := by
  rw [parseFilters_eq] at h
  rcases hc : parseCategoryFilter q with e | c <;> rw [hc] at h
  · exact absurd h (by simp [Except.bind])
  · rcases hp : parsePriceFilter q with e | p <;> rw [hp] at h
    · exact absurd h (by simp [Except.bind])
    · rcases hs : parseStockFilter q with e | s <;> rw [hs] at h
      · exact absurd h (by simp [Except.bind])
      · simp only [Except.bind, Except.ok.injEq] at h
        rw [← h]

/-- A failing price block fails all of parseFilters. -/
theorem parseFilters_fails_of_price (q : Query) (e : String)
    (h : parsePriceFilter q = .error e) : (parseFilters q).isOk = false := by
  rw [parseFilters_eq]
  rcases hc : parseCategoryFilter q with e2 | c
  · rfl
  · rw [Except.bind, h]
    rfl

/-- A bound accepted by the price block is neither NaN nor negative. -/
theorem parsePriceBound_ok (v : Option String) (msg : String) (x : JSNum)
    (h : parsePriceBound v msg = .ok (some x)) :
    x.isNaN = false ∧ JSNum.lt x (.num 0) = false := by
  unfold parsePriceBound at h
  split at h
  · split at h
    · cases h
    · rename_i hguard
      simp only [Except.ok.injEq, Option.some.injEq] at h
      subst h
      simpa [not_or] using hguard
  · cases h

/-- C4 amended: when both price bounds are supplied as non-negative numbers
and both are nonzero, parseFilters fails if min > max; but the min>max check
is skipped when a bound equals the falsy number 0, so a returned FilterSet
can have min > max only with max = 0. -/
theorem parseFilters_price_spec :
    ∀ q : Query,
      (∀ (sm sM : String) (m M : ℚ),
        q.minPrice = some sm → sm ≠ "" → q.maxPrice = some sM → sM ≠ "" →
        jsParseFloat sm = .num m → jsParseFloat sM = .num M →
        0 ≤ m → 0 ≤ M → m ≠ 0 → M ≠ 0 → M < m →
        (parseFilters q).isOk = false) ∧
      (∀ (f : Filters) (pr : PriceRange) (a b : ℚ),
        parseFilters q = .ok f → f.price = some pr →
        pr.min = some (.num a) → pr.max = some (.num b) → b < a → b = 0) := by
  intro q
  constructor
  · intro sm sM m M hsm hne hsM hne2 hpm hpM h0m h0M hm0 hM0 hMm
    apply parseFilters_fails_of_price q "minPrice cannot be greater than maxPrice"
    have htm : optTruthy q.minPrice = true := by
      rw [hsm]; simpa [optTruthy] using hne
    have htM : optTruthy q.maxPrice = true := by
      rw [hsM]; simpa [optTruthy] using hne2
    have hbm : parsePriceBound q.minPrice
        "minPrice must be a valid positive number" = .ok (some (.num m)) := by
      rw [parsePriceBound, if_pos htm, hsm]
      simp [hpm, JSNum.isNaN, JSNum.lt, not_lt.mpr h0m]
    have hbM : parsePriceBound q.maxPrice
        "maxPrice must be a valid positive number" = .ok (some (.num M)) := by
      rw [parsePriceBound, if_pos htM, hsM]
      simp [hpM, JSNum.isNaN, JSNum.lt, not_lt.mpr h0M]
    rw [parsePriceFilter]
    rw [if_pos (by rw [htm]; simp)]
    simp only [hbm, hbM, exceptBindOk]
    rw [if_pos]
    · rfl
    · simp [optNumTruthy, JSNum.truthy, JSNum.gt, JSNum.lt, hm0, hM0, hMm]
  · intro f pr a b hok hpr hmin hmax hba
    have hp : parsePriceFilter q = .ok (some pr) := by
      rw [parseFilters_price_of_ok q f hok, hpr]
    rw [parsePriceFilter] at hp
    by_cases hcond : (optTruthy q.minPrice || optTruthy q.maxPrice) = true
    · rw [if_pos hcond] at hp
      rcases hbm : parsePriceBound q.minPrice
          "minPrice must be a valid positive number" with e | pmin
      · simp only [hbm, exceptBindErr] at hp
        cases hp
      · simp only [hbm, exceptBindOk] at hp
        rcases hbM : parsePriceBound q.maxPrice
            "maxPrice must be a valid positive number" with e | pmax
        · simp only [hbM, exceptBindErr] at hp
          cases hp
        · simp only [hbM, exceptBindOk] at hp
          split at hp
          · cases hp
          · rename_i hguard
            simp only [pure, Except.pure, Except.ok.injEq,
              Option.some.injEq] at hp
            have hpm : pmin = some (.num a) := by rw [← hp] at hmin; exact hmin
            have hpM : pmax = some (.num b) := by rw [← hp] at hmax; exact hmax
            subst hpm
            subst hpM
            have h0b := (parsePriceBound_ok _ _ _ hbM).2
            simp only [JSNum.lt, decide_eq_false_iff_not, not_lt] at h0b
            have ha0 : a ≠ 0 := by
              intro h
              rw [h] at hba
              exact absurd (lt_of_le_of_lt h0b hba) (lt_irrefl 0)
            by_contra hb0
            apply hguard
            simp [optNumTruthy, JSNum.truthy, JSNum.gt, JSNum.lt, ha0, hb0, hba]
    · rw [if_neg hcond] at hp
      cases hp


/-- Witness for C4 at a concrete query: minPrice=5, maxPrice=3 (both
positive, min > max) makes parseFilters fail. -/
theorem parseFilters_price_spec_witness :
    (parseFilters
      ⟨none, none, .undefined, some "5", some "3", none, none, none, none,
       none, none⟩).isOk = false :=
  (parseFilters_price_spec _).1 "5" "3" 5 3 rfl (by decide) rfl (by decide)
    (by decide) (by decide) (by decide) (by decide) (by decide) (by decide)
    (by decide)

/-! ## C6: applySearch membership -/

/-- C6 counterexample: with term "false" over the configured field inStock,
an out-of-stock product stringifies that field to "false" — which contains
the term — yet applySearch drops it, because the falsy field value false
short-circuits the match. -/
theorem applySearch_counterexample :
    applySearch [prodB] searchFalse = [] ∧
    jsIncludes (jsToLower (prodB.fieldValue "inStock").toStr) "false" = true :=
  ⟨rfl, by decide⟩

/-- C6 amended: with a set term, applySearch keeps exactly those products of
P having some configured field whose value is truthy and whose lowercased
stringification contains the term (falsy field values never match); with no
term set it returns P unchanged. -/
theorem applySearch_spec :
    ∀ (P : List Product) (s : SearchSpec),
      ((s.term = none ∨ s.term = some "") → applySearch P s = P) ∧
      (applySearch P s).Sublist P ∧
      (∀ t, s.term = some t → t ≠ "" → ∀ p,
        (p ∈ applySearch P s ↔ p ∈ P ∧ ∃ f ∈ s.fields,
          (p.fieldValue f).truthy = true ∧
          jsIncludes (jsToLower (p.fieldValue f).toStr) t = true)) := by
  intro P s
  refine ⟨?_, ?_, ?_⟩
  · intro h
    rcases h with h | h <;> simp [applySearch, optTruthy, h]
  · unfold applySearch
    split
    · exact List.Sublist.refl P
    · exact List.filter_sublist P
  · intro t ht hne p
    have htr : optTruthy s.term = true := by
      rw [ht]; simpa [optTruthy] using hne
    unfold applySearch
    rw [if_neg (by rw [htr]; simp)]
    rw [List.mem_filter]
    simp only [ht, Option.getD_some, List.any_eq_true, Bool.and_eq_true]

/-- Witness for C6 at a concrete product and search: the term "gam" is found
in the name field of the sample laptop. -/
theorem applySearch_spec_witness :
    prodA ∈ applySearch [prodA] searchGam :=
  ((applySearch_spec [prodA] searchGam).2.2 "gam" rfl (by decide) prodA).mpr
    ⟨by simp, "name", by decide, by decide, by decide⟩

/-! ## C7: applyPagination -/

/-- The ceiling of n/k over the rationals is the rounded-up natural
division (n + k - 1) / k. -/
theorem ceil_natCast_div (n k : Nat) (hk : 0 < k) :
    ⌈(n : ℚ) / (k : ℚ)⌉ = ((n + k - 1) / k : Nat) := by
  have hkQ : (0:ℚ) < (k:ℚ) := by exact_mod_cast hk
  rw [← Nat.ceilDiv_eq_add_pred_div]
  apply le_antisymm
  · rw [Int.ceil_le, div_le_iff₀ hkQ]
    have h := le_smul_ceilDiv (a := k) (b := n) hk
    push_cast
    rw [mul_comm]
    exact_mod_cast h
  · by_contra hlt
    push_neg at hlt
    have hx0 : (0:ℚ) ≤ (n:ℚ)/(k:ℚ) := by positivity
    have hc0 : 0 ≤ ⌈(n:ℚ)/(k:ℚ)⌉ := Int.ceil_nonneg hx0
    have hceil : (n:ℚ)/(k:ℚ) ≤ (⌈(n:ℚ)/(k:ℚ)⌉ : ℚ) := Int.le_ceil _
    rw [div_le_iff₀ hkQ] at hceil
    have hncNat : n ≤ k * (⌈(n:ℚ)/(k:ℚ)⌉).toNat := by
      have hcast : ((⌈(n:ℚ)/(k:ℚ)⌉.toNat : ℕ) : ℚ) = ((⌈(n:ℚ)/(k:ℚ)⌉ : ℤ) : ℚ) := by
        exact_mod_cast Int.toNat_of_nonneg hc0
      have h2 : (n:ℚ) ≤ ((k : ℕ) : ℚ) * ((⌈(n:ℚ)/(k:ℚ)⌉.toNat : ℕ) : ℚ) := by
        rw [hcast]
        linarith
      exact_mod_cast h2
    have hle : n ⌈/⌉ k ≤ (⌈(n:ℚ)/(k:ℚ)⌉).toNat :=
      (ceilDiv_le_iff_le_smul hk).2 (by simpa using hncNat)
    omega

/-- Array.prototype.slice with a non-negative start and window, as drop and
take. -/
theorem jsSlice_nonneg {α : Type} (l : List α) (start len : Int)
    (hs : 0 ≤ start) (hl : 0 ≤ len) :
    jsSlice l start (start + len) = (l.drop start.toNat).take len.toNat := by
  have hdef : jsSlice l start (start + len) =
      List.take
        ((if start + len < 0 then max ((l.length : Int) + (start + len)) 0
          else min (start + len) (l.length : Int)).toNat -
         (if start < 0 then max ((l.length : Int) + start) 0
          else min start (l.length : Int)).toNat)
        (List.drop
          (if start < 0 then max ((l.length : Int) + start) 0
           else min start (l.length : Int)).toNat l) := rfl
  rw [hdef, if_neg (by omega), if_neg (by omega)]
  rcases le_or_lt (l.length : Int) start with hcase | hcase
  · have e1 : (min start (l.length : Int)).toNat = l.length := by omega
    rw [e1, List.drop_length, List.take_nil,
      List.drop_eq_nil_of_le (by omega : l.length ≤ start.toNat), List.take_nil]
  · have e1 : (min start (l.length : Int)).toNat = start.toNat := by omega
    rw [e1]
    rcases le_or_lt (start + len) (l.length : Int) with hc2 | hc2
    · have e2 : (min (start + len) (l.length : Int)).toNat - start.toNat =
          len.toNat := by omega
      rw [e2]
    · have e2 : (min (start + len) (l.length : Int)).toNat - start.toNat =
          l.length - start.toNat := by omega
      have hlen : (l.drop start.toNat).length = l.length - start.toNat :=
        List.length_drop _ _
      rw [e2, List.take_of_length_le (by omega),
        List.take_of_length_le (by omega)]

/-- C7: for a valid pagination (page ≥ 1, 1 ≤ limit ≤ 100, skip the derived
(page-1)·limit), applyPagination returns the slice [skip, skip+limit) of at
most limit items, totalPages = ceil(n/limit) as the rounded-up natural
division (0 when n = 0), hasNextPage iff skip+limit < n, hasPrevPage iff
page > 1, and an out-of-range page yields an empty page, not an error. -/
theorem applyPagination_spec :
    ∀ (P : List Product) (p l : Int), 1 ≤ p → 1 ≤ l → l ≤ 100 →
      ((applyPagination P ⟨p, l, (p-1)*l, (p-1)*l⟩).data.length : Int) ≤ l ∧
      (applyPagination P ⟨p, l, (p-1)*l, (p-1)*l⟩).data =
        (P.drop ((p-1)*l).toNat).take l.toNat ∧
      (applyPagination P ⟨p, l, (p-1)*l, (p-1)*l⟩).pagination.totalPages =
        ((P.length + l.toNat - 1) / l.toNat : Nat) ∧
      (P.length = 0 →
        (applyPagination P ⟨p, l, (p-1)*l, (p-1)*l⟩).pagination.totalPages = 0) ∧
      ((applyPagination P ⟨p, l, (p-1)*l, (p-1)*l⟩).pagination.hasNextPage = true
        ↔ (p-1)*l + l < (P.length : Int)) ∧
      ((applyPagination P ⟨p, l, (p-1)*l, (p-1)*l⟩).pagination.hasPrevPage = true
        ↔ 1 < p) ∧
      ((P.length : Int) ≤ (p-1)*l →
        (applyPagination P ⟨p, l, (p-1)*l, (p-1)*l⟩).data = []) := by
  intro P p l hp hl1 hl100
  have hskip : (0:Int) ≤ (p-1)*l := mul_nonneg (by omega) (by omega)
  have hdata : (applyPagination P ⟨p, l, (p-1)*l, (p-1)*l⟩).data =
      (P.drop ((p-1)*l).toNat).take l.toNat :=
    jsSlice_nonneg P ((p-1)*l) l hskip (by omega)
  have htp : (applyPagination P ⟨p, l, (p-1)*l, (p-1)*l⟩).pagination.totalPages =
      ((P.length + l.toNat - 1) / l.toNat : Nat) := by
    show mathCeilDiv P.length l = _
    unfold mathCeilDiv
    have hc : (l:ℚ) = ((l.toNat : ℕ) : ℚ) := by
      exact_mod_cast (Int.toNat_of_nonneg (show (0:Int) ≤ l by omega)).symm
    rw [hc, ceil_natCast_div P.length l.toNat (by omega)]
  refine ⟨?_, hdata, htp, ?_, ?_, ?_, ?_⟩
  · rw [hdata]
    have := List.length_take l.toNat (P.drop ((p-1)*l).toNat)
    omega
  · intro h0
    rw [htp, h0, Nat.div_eq_of_lt (show 0 + l.toNat - 1 < l.toNat by omega)]
    rfl
  · simp [applyPagination]
  · simp [applyPagination]
  · intro hout
    rw [hdata, List.drop_eq_nil_of_le (by omega), List.take_nil]

/-- Witness for C7 at a concrete list and pagination: page 2, limit 1 over
two products yields the second product alone, with a next-page-free,
prev-page-ful metadata block. -/
theorem applyPagination_spec_witness :
    ((applyPagination [prodA, prodB] ⟨2, 1, 1, 1⟩).data.length : Int) ≤ 1 ∧
    (applyPagination [prodA, prodB] ⟨2, 1, 1, 1⟩).pagination.totalPages = 2 ∧
    ((applyPagination [prodA, prodB] ⟨2, 1, 1, 1⟩).pagination.hasPrevPage = true
      ↔ (1:Int) < 2) := by
  have h := applyPagination_spec [prodA, prodB] 2 1 (by decide) (by decide)
    (by decide)
  exact ⟨h.1, h.2.2.1, h.2.2.2.2.2.1⟩

/-! ## C8: no infinity sentinel in category statistics -/

/-- Math.min of a finite number into a posInf-or-finite accumulator is
finite. -/
theorem jsMin_num_of (x : JSNum) (q : ℚ)
    (h : x = .posInf ∨ ∃ a, x = .num a) :
    ∃ c, jsMin x (.num q) = .num c := by
  rcases h with rfl | ⟨a, rfl⟩
  · exact ⟨q, rfl⟩
  · exact ⟨min a q, rfl⟩

/-- Math.max of a finite number into a negInf-or-finite accumulator is
finite. -/
theorem jsMax_num_of (x : JSNum) (q : ℚ)
    (h : x = .negInf ∨ ∃ a, x = .num a) :
    ∃ c, jsMax x (.num q) = .num c := by
  rcases h with rfl | ⟨a, rfl⟩
  · exact ⟨q, rfl⟩
  · exact ⟨max a q, rfl⟩

/-- One accumulation step preserves finiteness of every entry's min and max
price: a fresh sentinel entry is updated with the product's price in the
same step. -/
theorem insertProduct_inv (m : List (String × CatAcc)) (p : Product)
    (hm : ∀ e ∈ m, (∃ a, e.2.minPrice = JSNum.num a) ∧
      (∃ b, e.2.maxPrice = JSNum.num b)) :
    ∀ e ∈ insertProduct m p, (∃ a, e.2.minPrice = JSNum.num a) ∧
      (∃ b, e.2.maxPrice = JSNum.num b) := by
  intro e he
  unfold insertProduct at he
  rcases List.mem_map.mp he with ⟨e0, he0, rfl⟩
  have he0m : e0 ∈ m ∨ e0 = (p.category, freshCatAcc) := by
    split at he0
    · rcases List.mem_append.mp he0 with h | h
      · exact Or.inl h
      · exact Or.inr (List.mem_singleton.mp h)
    · exact Or.inl he0
  have hbase : (e0.2.minPrice = .posInf ∨ ∃ a, e0.2.minPrice = .num a) ∧
      (e0.2.maxPrice = .negInf ∨ ∃ b, e0.2.maxPrice = .num b) := by
    rcases he0m with h | rfl
    · exact ⟨Or.inr (hm e0 h).1, Or.inr (hm e0 h).2⟩
    · exact ⟨Or.inl rfl, Or.inl rfl⟩
  by_cases hc : e0.1 = p.category
  · rw [if_pos hc]
    exact ⟨jsMin_num_of _ _ hbase.1, jsMax_num_of _ _ hbase.2⟩
  · rw [if_neg hc]
    rcases he0m with h | rfl
    · exact hm e0 h
    · exact absurd rfl hc

/-- The accumulation pass preserves the finiteness invariant. -/
theorem accumulate_inv (P : List Product) :
    ∀ m : List (String × CatAcc),
      (∀ e ∈ m, (∃ a, e.2.minPrice = JSNum.num a) ∧
        (∃ b, e.2.maxPrice = JSNum.num b)) →
      ∀ e ∈ P.foldl insertProduct m, (∃ a, e.2.minPrice = JSNum.num a) ∧
        (∃ b, e.2.maxPrice = JSNum.num b) := by
  induction P with
  | nil => intro m hm; exact hm
  | cons p P ih =>
      intro m hm
      exact ih (insertProduct m p) (insertProduct_inv m p hm)

/-- C8: every per-category entry of calculateCategoryStats has finite
minPrice and maxPrice (no ±Infinity sentinel ever appears in the returned
statistics), and the finalization of an entry with no accumulated members
resolves the sentinels to 0. -/
theorem calculateCategoryStats_no_sentinel :
    ∀ P : List Product,
      (∀ e ∈ calculateCategoryStats P,
        (∃ a, e.2.minPrice = JSNum.num a) ∧
        (∃ b, e.2.maxPrice = JSNum.num b)) ∧
      (finalizeCatAcc freshCatAcc).minPrice = JSNum.num 0 ∧
      (finalizeCatAcc freshCatAcc).maxPrice = JSNum.num 0 := by
  intro P
  refine ⟨?_, rfl, rfl⟩
  intro e he
  unfold calculateCategoryStats at he
  rcases List.mem_map.mp he with ⟨e0, he0, rfl⟩
  have h0 := accumulate_inv P [] (fun e h => absurd h (List.not_mem_nil e))
    e0 he0
  constructor
  · rcases h0.1 with ⟨a, ha⟩
    exact ⟨a, by simp [finalizeCatAcc, ha]⟩
  · rcases h0.2 with ⟨b, hb⟩
    exact ⟨b, by simp [finalizeCatAcc, hb]⟩

/-- Witness for C8 at a concrete one-product list. -/
theorem calculateCategoryStats_no_sentinel_witness :
    (∃ a, (("electronics", finalizeCatAcc (updateCatAcc freshCatAcc prodA)) :
        String × CatStats).2.minPrice = JSNum.num a) ∧
    (∃ b, (("electronics", finalizeCatAcc (updateCatAcc freshCatAcc prodA)) :
        String × CatStats).2.maxPrice = JSNum.num b) := by
  have hmem : (("electronics", finalizeCatAcc (updateCatAcc freshCatAcc prodA)) :
      String × CatStats) ∈ calculateCategoryStats [prodA] := by
    show _ ∈ [(("electronics",
      finalizeCatAcc (updateCatAcc freshCatAcc prodA)) : String × CatStats)]
    exact List.mem_singleton.mpr rfl
  exact (calculateCategoryStats_no_sentinel [prodA]).1 _ hmem

/-! ## C1: pipeline composition order in the listing handler -/

/-- C1 counterexample: the sequence the handler hands to applySearch is the
raw copy of the store, not the output of applyFilters — on a store whose
only product is filtered out, the two differ. -/
theorem handler_order_counterexample :
    handlerSearchInput [prodA] filterOutOfStock ≠
      applyFilters [prodA] filterOutOfStock := by
  decide

/-- C1 amended: the handler applies search first (on the raw copy), then
filters, then sorting, then pagination; because applySearch and applyFilters
are both pure filters, the final result coincides with the
filter → search → sort → paginate composition. -/
theorem listProductsHandler_composition :
    ∀ (P : List Product) (filters : Filters) (search : SearchSpec)
      (sort : SortSpec) (pagination : Pagination),
      listProductsHandler P filters search sort pagination =
        applyPagination (applySorting
          (applyFilters (handlerFilterInput P search) filters) sort)
          pagination ∧
      listProductsHandler P filters search sort pagination =
        applyPagination (applySorting
          (applySearch (applyFilters P filters) search) sort) pagination := by
  intro P f s srt pag
  have hcomm : applyFilters (handlerFilterInput P s) f =
      applySearch (applyFilters P f) s := by
    unfold handlerFilterInput
    by_cases h : optTruthy s.term = true
    · rw [if_pos h]
      unfold applySearch
      rw [if_neg (by rw [h]; simp), if_neg (by rw [h]; simp)]
      unfold applyFilters
      rw [List.filter_filter, List.filter_filter]
      congr 1
      funext a
      exact Bool.and_comm _ _
    · have hf : optTruthy s.term = false := by
        revert h; cases optTruthy s.term <;> simp
      rw [if_neg (by rw [hf]; simp)]
      unfold applySearch
      rw [if_pos (by rw [hf]; rfl)]
  refine ⟨rfl, ?_⟩
  calc listProductsHandler P f s srt pag
      = applyPagination (applySorting
          (applyFilters (handlerFilterInput P s) f) srt) pag := rfl
    _ = applyPagination (applySorting
          (applySearch (applyFilters P f) s) srt) pag := by rw [hcomm]

/-! ## C2: applySorting sorts in place -/

/-- Cons-level characterization of the code-unit lexicographic order. -/
theorem charListLt_cons_iff (a b : Char) (as bs : List Char) :
    charListLt (a :: as) (b :: bs) = true ↔
      a < b ∨ (a = b ∧ charListLt as bs = true) := by
  show (if a < b then true
    else if b < a then false else charListLt as bs) = true ↔ _
  split_ifs with h1 h2
  · simp [h1]
  · refine iff_of_false (by simp) ?_
    rintro (h | ⟨rfl, _⟩)
    · exact h1 h
    · exact absurd h2 (lt_irrefl a)
  · have hab : a = b := le_antisymm (not_lt.mp h2) (not_lt.mp h1)
    simp [hab, lt_irrefl]

theorem charListLt_irrefl (x : List Char) : charListLt x x = false := by
  induction x with
  | nil => rfl
  | cons a as ih =>
      show (if a < a then true
        else if a < a then false else charListLt as as) = false
      rw [if_neg (lt_irrefl a), if_neg (lt_irrefl a)]
      exact ih

theorem charListLt_trans : ∀ x y z : List Char, charListLt x y = true →
    charListLt y z = true → charListLt x z = true := by
  intro x
  induction x with
  | nil =>
      intro y z hxy hyz
      cases y with
      | nil => simp [charListLt] at hxy
      | cons b bs =>
          cases z with
          | nil => simp [charListLt] at hyz
          | cons c cs => rfl
  | cons a as ih =>
      intro y z hxy hyz
      cases y with
      | nil => simp [charListLt] at hxy
      | cons b bs =>
          cases z with
          | nil => simp [charListLt] at hyz
          | cons c cs =>
              rw [charListLt_cons_iff] at hxy hyz ⊢
              rcases hxy with h1 | ⟨rfl, h1⟩ <;>
                rcases hyz with h2 | ⟨rfl, h2⟩
              · exact Or.inl (lt_trans h1 h2)
              · exact Or.inl h1
              · exact Or.inl h2
              · exact Or.inr ⟨rfl, ih bs cs h1 h2⟩

theorem charListLt_connex : ∀ x y : List Char, charListLt x y = false →
    charListLt y x = false → x = y := by
  intro x
  induction x with
  | nil =>
      intro y h1 h2
      cases y with
      | nil => rfl
      | cons b bs => simp [charListLt] at h1
  | cons a as ih =>
      intro y h1 h2
      cases y with
      | nil => simp [charListLt] at h2
      | cons b bs =>
          have h1' : ¬(a < b ∨ (a = b ∧ charListLt as bs = true)) := by
            rw [← charListLt_cons_iff]
            simp [h1]
          have h2' : ¬(b < a ∨ (b = a ∧ charListLt bs as = true)) := by
            rw [← charListLt_cons_iff]
            simp [h2]
          push_neg at h1' h2'
          have hab : a = b := le_antisymm h2'.1 h1'.1
          have has : charListLt as bs = false := by
            have := h1'.2 hab
            revert this
            cases charListLt as bs <;> simp
          have hbs : charListLt bs as = false := by
            have := h2'.2 hab.symm
            revert this
            cases charListLt bs as <;> simp
          rw [hab, ih bs has hbs]

theorem charListLt_negtrans (x y z : List Char)
    (hxy : charListLt x y = false) (hyz : charListLt y z = false) :
    charListLt x z = false := by
  by_contra h
  have hxz : charListLt x z = true := by
    revert h
    cases charListLt x z <;> simp
  have hyx : charListLt y x = true ∨ x = y := by
    cases hc : charListLt y x with
    | false => exact Or.inr (charListLt_connex x y hxy hc)
    | true => exact Or.inl rfl
  rcases hyx with hyx | rfl
  · have := charListLt_trans y x z hyx hxz
    rw [this] at hyz
    exact Bool.noConfusion hyz
  · rw [hxz] at hyz
    exact Bool.noConfusion hyz

theorem charListLt_total (x y : List Char) :
    charListLt x y = false ∨ charListLt y x = false := by
  cases hc : charListLt x y with
  | false => exact Or.inl rfl
  | true =>
      right
      cases hd : charListLt y x with
      | false => rfl
      | true =>
          have := charListLt_trans x y x hc hd
          rw [charListLt_irrefl] at this
          exact Bool.noConfusion this

/-- Totality of the comparator-induced order on two string values. -/
theorem jsValGt_str_total (x y : String) :
    jsValGt (.vstr x) (.vstr y) = false ∨ jsValGt (.vstr y) (.vstr x) = false :=
  (charListLt_total y.data x.data).elim Or.inl Or.inr

theorem jsValGt_str_negtrans (u v w : String)
    (h1 : jsValGt (.vstr u) (.vstr v) = false)
    (h2 : jsValGt (.vstr v) (.vstr w) = false) :
    jsValGt (.vstr u) (.vstr w) = false :=
  charListLt_negtrans w.data v.data u.data h2 h1

theorem jsValGt_num_total (x y : ℚ) :
    jsValGt (.vnum x) (.vnum y) = false ∨ jsValGt (.vnum y) (.vnum x) = false := by
  rcases le_total x y with h | h
  · left
    show decide (y < x) = false
    rw [decide_eq_false_iff_not]
    exact not_lt.mpr h
  · right
    show decide (x < y) = false
    rw [decide_eq_false_iff_not]
    exact not_lt.mpr h

theorem jsValGt_num_negtrans (u v w : ℚ)
    (h1 : jsValGt (.vnum u) (.vnum v) = false)
    (h2 : jsValGt (.vnum v) (.vnum w) = false) :
    jsValGt (.vnum u) (.vnum w) = false := by
  have hn1 : ¬ v < u := of_decide_eq_false (h1 : decide (v < u) = false)
  have hn2 : ¬ w < v := of_decide_eq_false (h2 : decide (w < v) = false)
  show decide (w < u) = false
  rw [decide_eq_false_iff_not]
  exact fun h => hn1 (lt_of_le_of_lt (not_lt.mp hn2) h)

/-- The value constructor a product field yields is a function of the field
alone. -/
theorem fieldValue_kind (f : String) :
    (∀ p : Product, ∃ x, p.fieldValue f = .vstr x) ∨
    (∀ p : Product, ∃ x, p.fieldValue f = .vnum x) ∨
    (∀ p : Product, ∃ x, p.fieldValue f = .vbool x) ∨
    (∀ p : Product, p.fieldValue f = .undefined) := by
  by_cases h1 : f = "id"
  · exact Or.inl fun p => ⟨p.id, by simp [Product.fieldValue, h1]⟩
  by_cases h2 : f = "name"
  · exact Or.inl fun p => ⟨p.name, by simp [Product.fieldValue, h1, h2]⟩
  by_cases h3 : f = "description"
  · exact Or.inl fun p =>
      ⟨p.description, by simp [Product.fieldValue, h1, h2, h3]⟩
  by_cases h4 : f = "price"
  · exact Or.inr (Or.inl fun p =>
      ⟨p.price, by simp [Product.fieldValue, h1, h2, h3, h4]⟩)
  by_cases h5 : f = "category"
  · exact Or.inl fun p =>
      ⟨p.category, by simp [Product.fieldValue, h1, h2, h3, h4, h5]⟩
  by_cases h6 : f = "inStock"
  · exact Or.inr (Or.inr (Or.inl fun p =>
      ⟨p.inStock, by simp [Product.fieldValue, h1, h2, h3, h4, h5, h6]⟩))
  by_cases h7 : f = "createdAt"
  · exact Or.inl fun p =>
      ⟨p.createdAt, by simp [Product.fieldValue, h1, h2, h3, h4, h5, h6, h7]⟩
  by_cases h8 : f = "updatedAt"
  · exact Or.inl fun p =>
      ⟨p.updatedAt,
        by simp [Product.fieldValue, h1, h2, h3, h4, h5, h6, h7, h8]⟩
  exact Or.inr (Or.inr (Or.inr fun p =>
    by simp [Product.fieldValue, h1, h2, h3, h4, h5, h6, h7, h8]))

/-- All three products yield the same value constructor for a fixed sort
field. -/
theorem fieldValue_cases (f : String) (a b c : Product) :
    (∃ x y z, a.fieldValue f = .vstr x ∧ b.fieldValue f = .vstr y ∧
      c.fieldValue f = .vstr z) ∨
    (∃ x y z, a.fieldValue f = .vnum x ∧ b.fieldValue f = .vnum y ∧
      c.fieldValue f = .vnum z) ∨
    (∃ x y z, a.fieldValue f = .vbool x ∧ b.fieldValue f = .vbool y ∧
      c.fieldValue f = .vbool z) ∨
    (a.fieldValue f = .undefined ∧ b.fieldValue f = .undefined ∧
      c.fieldValue f = .undefined) := by
  rcases fieldValue_kind f with h | h | h | h
  · obtain ⟨x, hx⟩ := h a
    obtain ⟨y, hy⟩ := h b
    obtain ⟨z, hz⟩ := h c
    exact Or.inl ⟨x, y, z, hx, hy, hz⟩
  · obtain ⟨x, hx⟩ := h a
    obtain ⟨y, hy⟩ := h b
    obtain ⟨z, hz⟩ := h c
    exact Or.inr (Or.inl ⟨x, y, z, hx, hy, hz⟩)
  · obtain ⟨x, hx⟩ := h a
    obtain ⟨y, hy⟩ := h b
    obtain ⟨z, hz⟩ := h c
    exact Or.inr (Or.inr (Or.inl ⟨x, y, z, hx, hy, hz⟩))
  · exact Or.inr (Or.inr (Or.inr ⟨h a, h b, h c⟩))

/-- The zeta-expanded comparator. -/
theorem sortComparator_eq (s : SortSpec) (a b : Product) :
    sortComparator s a b =
      (if s.order = "desc" then
        if jsValGt
            (if (a.fieldValue s.field).isString
              then lowerIfString (b.fieldValue s.field)
              else (b.fieldValue s.field))
            (if (a.fieldValue s.field).isString
              then lowerIfString (a.fieldValue s.field)
              else (a.fieldValue s.field)) then 1
        else if jsValLt
            (if (a.fieldValue s.field).isString
              then lowerIfString (b.fieldValue s.field)
              else (b.fieldValue s.field))
            (if (a.fieldValue s.field).isString
              then lowerIfString (a.fieldValue s.field)
              else (a.fieldValue s.field)) then -1
        else 0
      else
        if jsValGt
            (if (a.fieldValue s.field).isString
              then lowerIfString (a.fieldValue s.field)
              else (a.fieldValue s.field))
            (if (a.fieldValue s.field).isString
              then lowerIfString (b.fieldValue s.field)
              else (b.fieldValue s.field)) then 1
        else if jsValLt
            (if (a.fieldValue s.field).isString
              then lowerIfString (a.fieldValue s.field)
              else (a.fieldValue s.field))
            (if (a.fieldValue s.field).isString
              then lowerIfString (b.fieldValue s.field)
              else (b.fieldValue s.field)) then -1
        else 0) := rfl

/-- The comparator value is non-positive exactly when the leading > test
fails. -/
theorem compCore_nonpos (w v : JSVal) :
    ((if jsValGt w v then (1:Int) else if jsValLt w v then -1 else 0) ≤ 0) ↔
      jsValGt w v = false := by
  cases h : jsValGt w v
  · rw [if_neg (by simp)]
    refine iff_of_true ?_ rfl
    split <;> omega
  · rw [if_pos rfl]
    exact iff_of_false (by omega) (by simp)

/-- Totality of the comparator-induced order. -/
theorem sortLe_total (s : SortSpec) : ∀ a b : Product,
    sortLe s a b ∨ sortLe s b a := by
  intro a b
  unfold sortLe
  rw [sortComparator_eq s a b, sortComparator_eq s b a]
  rcases fieldValue_cases s.field a b a with
    ⟨x, y, _, hx, hy, _⟩ | ⟨x, y, _, hx, hy, _⟩ | ⟨x, y, _, hx, hy, _⟩ |
    ⟨hx, hy, _⟩ <;>
  rw [hx, hy] <;>
  simp only [JSVal.isString, lowerIfString, if_pos, if_neg, Bool.false_eq_true,
    ite_true, ite_false] <;>
  by_cases ho : s.order = "desc" <;>
  simp only [ho, if_true, if_false, ite_true, ite_false, compCore_nonpos]
  · exact jsValGt_str_total _ _
  · exact jsValGt_str_total _ _
  · exact jsValGt_num_total _ _
  · exact jsValGt_num_total _ _
  · cases x <;> cases y <;> decide
  · cases x <;> cases y <;> decide
  · decide
  · decide

/-- Transitivity of the comparator-induced order. -/
theorem sortLe_trans (s : SortSpec) : ∀ a b c : Product,
    sortLe s a b → sortLe s b c → sortLe s a c := by
  intro a b c h1 h2
  unfold sortLe at h1 h2 ⊢
  rw [sortComparator_eq s a b] at h1
  rw [sortComparator_eq s b c] at h2
  rw [sortComparator_eq s a c]
  rcases fieldValue_cases s.field a b c with
    ⟨x, y, z, hx, hy, hz⟩ | ⟨x, y, z, hx, hy, hz⟩ | ⟨x, y, z, hx, hy, hz⟩ |
    ⟨hx, hy, hz⟩ <;>
  rw [hx, hy] at h1 <;> rw [hy, hz] at h2 <;> rw [hx, hz] <;>
  simp only [JSVal.isString, lowerIfString, ite_true, ite_false] at h1 h2 ⊢ <;>
  by_cases ho : s.order = "desc" <;>
  simp only [ho, ite_true, ite_false, compCore_nonpos] at h1 h2 ⊢
  · exact jsValGt_str_negtrans _ _ _ h2 h1
  · exact jsValGt_str_negtrans _ _ _ h1 h2
  · exact jsValGt_num_negtrans _ _ _ h2 h1
  · exact jsValGt_num_negtrans _ _ _ h1 h2
  · cases x <;> cases y <;> cases z <;> revert h1 h2 <;> decide
  · cases x <;> cases y <;> cases z <;> revert h1 h2 <;> decide
  · rfl
  · rfl

/-- C2 counterexample: the state of the passed-in array after an
applySorting call is the sorted order, not the original order — sorting two
products by ascending price mutates the argument. -/
theorem applySortingCall_counterexample :
    (applySortingCall [prodA, prodB] sortPriceAsc).2 ≠ [prodA, prodB] := by
  decide

/-- C2 amended: applySorting returns the sequence sorted by the
comparator-induced order (a permutation of the input), but it sorts the
passed-in array in place: the returned reference is the argument array,
whose post-call state is the sorted order rather than the original. -/
theorem applySortingCall_spec :
    ∀ (P : List Product) (s : SortSpec),
      (applySortingCall P s).1 = (applySortingCall P s).2 ∧
      ((applySortingCall P s).2).Perm P ∧
      List.Sorted (sortLe s) (applySortingCall P s).1 := by
  intro P s
  refine ⟨rfl, List.perm_insertionSort _ _, ?_⟩
  exact @List.sorted_insertionSort _ (sortLe s) _
    ⟨fun a b => sortLe_total s a b⟩ ⟨fun a b c => sortLe_trans s a b c⟩ P
